import Mathlib

set_option autoImplicit false

namespace SauceDemo

/-! ### JavaScript string primitives

The page objects manipulate DOM text with JavaScript string operations:
trimming, first-occurrence replacement (`String.prototype.replace` with a
string pattern replaces only the first occurrence), `parseFloat` and
`parseInt(s, 10)`.  We model texts as Lean strings and implement these
operations over the underlying character lists.  Numbers are modelled as
exact rationals; a JavaScript NaN result is modelled as `none`. -/

/-- Whitespace characters recognised by the JavaScript trim used here
(space, tab, line feed, carriage return). -/
def jsWhitespace (c : Char) : Bool :=
  c == ' ' || c == '\t' || c == '\n' || c == '\r'

/-- Drop leading whitespace characters. -/
def dropLeadWs : List Char → List Char
  | [] => []
  | c :: cs => if jsWhitespace c then dropLeadWs cs else c :: cs

/-- Drop trailing whitespace characters. -/
def dropTrailWs (l : List Char) : List Char :=
  (dropLeadWs l.reverse).reverse

/-- Both-ends trim on character lists. -/
def trimL (l : List Char) : List Char :=
  dropLeadWs (dropTrailWs l)

/-- Model of `String.prototype.trim`. -/
def jsTrim (s : String) : String :=
  ⟨trimL s.data⟩

/-- `leadsWith pat l` holds when `pat` is an initial segment of `l`. -/
def leadsWith : List Char → List Char → Bool
  | [], _ => true
  | _ :: _, [] => false
  | p :: ps, c :: cs => p == c && leadsWith ps cs

/-- Remove the first occurrence of `pat` from the list, if any (the
behaviour of `s.replace(pat, '')` in JavaScript with a string pattern). -/
def replaceFirstL (pat : List Char) : List Char → List Char
  | [] => []
  | c :: cs =>
    if leadsWith pat (c :: cs) then (c :: cs).drop pat.length
    else c :: replaceFirstL pat cs

/-- Model of `s.replace(pat, '')`: removes the first occurrence of `pat`. -/
def jsReplaceFirst (s pat : String) : String :=
  ⟨replaceFirstL pat.data s.data⟩

/-- Numeric value of a decimal digit character. -/
def digitVal (c : Char) : Nat := c.toNat - 48

/-- Split off the longest leading run of decimal digit characters. -/
def takeDigitsL : List Char → List Char × List Char
  | [] => ([], [])
  | c :: cs =>
    if c.isDigit then
      let p := takeDigitsL cs
      (c :: p.1, p.2)
    else ([], c :: cs)

/-- Value of a big-endian list of digit characters. -/
def valOfDigits (l : List Char) : Nat :=
  l.foldl (fun a c => a * 10 + digitVal c) 0

/-- Optional sign at the head of a number literal. -/
def readSign (l : List Char) : ℚ × List Char :=
  match l with
  | [] => (1, [])
  | c :: cs =>
    if c = '-' then (-1, cs)
    else if c = '+' then (1, cs)
    else (1, c :: cs)

/-- Digits of an exponent part; `0` when no digits follow (as in JavaScript,
where a malformed exponent suffix is ignored by `parseFloat`). -/
def expDigits (l : List Char) : Int :=
  let p := takeDigitsL l
  if p.1.isEmpty then 0 else (valOfDigits p.1 : Int)

/-- Exponent value after the `e`, with optional sign. -/
def readExpTail (l : List Char) : Int :=
  match l with
  | [] => 0
  | c :: cs =>
    if c = '-' then -(expDigits cs)
    else if c = '+' then expDigits cs
    else expDigits (c :: cs)

/-- Optional exponent suffix of a number literal (`e`/`E`). -/
def readExp (l : List Char) : Int :=
  match l with
  | [] => 0
  | c :: cs => if c = 'e' ∨ c = 'E' then readExpTail cs else 0

/-- Integer power of ten over the rationals. -/
def powTen (e : Int) : ℚ :=
  if 0 ≤ e then ((10 : ℚ) ^ e.toNat) else 1 / ((10 : ℚ) ^ (-e).toNat)

/-- Fractional part after the integer digits: when a point follows, split
off the fraction digits, otherwise contribute nothing. -/
def fracSplit : List Char → List Char × List Char
  | [] => ([], [])
  | c :: t => if c = '.' then takeDigitsL t else ([], c :: t)

/-- Model of JavaScript `parseFloat` on a character list: skip leading
whitespace, optional sign, longest run of digits, optional fractional part,
optional well-formed exponent; `none` models NaN (no parsable prefix).
The special literal `Infinity` is not modelled; it does not occur in any
text this suite parses. -/
def parseFloatL (l : List Char) : Option ℚ :=
  let l0 := dropLeadWs l
  let sp := readSign l0
  let p1 := takeDigitsL sp.2
  let p2 := fracSplit p1.2
  if p1.1.isEmpty && p2.1.isEmpty then none
  else
    some (sp.1 * ((valOfDigits p1.1 : ℚ) + (valOfDigits p2.1 : ℚ) / (10 : ℚ) ^ p2.1.length)
          * powTen (readExp p2.2))

/-- Model of JavaScript `parseFloat` on strings. -/
def parseFloatQ (s : String) : Option ℚ :=
  parseFloatL s.data

/-- Model of JavaScript `parseInt(s, 10)`; `none` models NaN. -/
def parseIntL (l : List Char) : Option Int :=
  let l0 := dropLeadWs l
  let sp : Int × List Char :=
    match l0 with
    | [] => (1, [])
    | c :: cs =>
      if c = '-' then (-1, cs)
      else if c = '+' then (1, cs)
      else (1, c :: cs)
  let p := takeDigitsL sp.2
  if p.1.isEmpty then none else some (sp.1 * (valOfDigits p.1 : Int))

/-- Model of JavaScript `parseInt(s, 10)` on strings. -/
def parseIntDec (s : String) : Option Int :=
  parseIntL s.data

/-- Does the list start with a decimal point? -/
def headIsDot : List Char → Bool
  | [] => false
  | c :: _ => c = '.'

/-- A clean decimal numeral: a nonempty digit run, optionally followed by a
point and a nonempty digit run, and nothing else.  Display prices such as
`32.39` have this shape. -/
def cleanDecimalL (l : List Char) : Option ℚ :=
  let p1 := takeDigitsL l
  if p1.1.isEmpty then none
  else if p1.2.isEmpty then some (valOfDigits p1.1 : ℚ)
  else if headIsDot p1.2 then
    let p2 := fracSplit p1.2
    if p2.1.isEmpty || !p2.2.isEmpty then none
    else some ((valOfDigits p1.1 : ℚ) + (valOfDigits p2.1 : ℚ) / (10 : ℚ) ^ p2.1.length)
  else none

/-- Clean decimal numerals on strings. -/
def cleanDecimal (s : String) : Option ℚ :=
  cleanDecimalL s.data

/-! ### Lemmas about the string primitives -/

theorem string_eq_of_data {a b : String} (h : a.data = b.data) : a = b := by
  cases a
  cases b
  cases h
  rfl

theorem takeDigitsL_append (l : List Char) :
    (takeDigitsL l).1 ++ (takeDigitsL l).2 = l := by
  induction l with
  | nil => rfl
  | cons c cs ih =>
    by_cases hc : c.isDigit
    · simp [takeDigitsL, hc, ih]
    · simp [takeDigitsL, hc]

theorem takeDigitsL_digits (l : List Char) :
    ∀ c ∈ (takeDigitsL l).1, c.isDigit = true := by
  induction l with
  | nil => intro c hc; simp [takeDigitsL] at hc
  | cons d cs ih =>
    intro c hc
    by_cases hd : d.isDigit
    · simp [takeDigitsL, hd] at hc
      rcases hc with hc | hc
      · exact hc ▸ hd
      · exact ih c hc
    · simp [takeDigitsL, hd] at hc

/-- The head of the remainder, when present, is not a digit. -/
theorem takeDigitsL_rest (l : List Char) :
    ∀ c cs, (takeDigitsL l).2 = c :: cs → c.isDigit = false := by
  induction l with
  | nil => intro c cs h; simp [takeDigitsL] at h
  | cons d t ih =>
    intro c cs h
    by_cases hd : d.isDigit
    · simp [takeDigitsL, hd] at h
      exact ih c cs h
    · simp [takeDigitsL, hd] at h
      rw [← h.1]
      simpa using hd

theorem takeDigitsL_exact (ds r : List Char) (hds : ∀ c ∈ ds, c.isDigit = true)
    (hr : ∀ c cs, r = c :: cs → c.isDigit = false) :
    takeDigitsL (ds ++ r) = (ds, r) := by
  induction ds with
  | nil =>
    cases r with
    | nil => rfl
    | cons c cs => simp [takeDigitsL, hr c cs rfl]
  | cons d t ih =>
    have hd : d.isDigit = true := hds d (by simp)
    have ht : takeDigitsL (t ++ r) = (t, r) := ih (fun c hc => hds c (by simp [hc]))
    simp [takeDigitsL, hd, ht]

theorem isDigit_facts {c : Char} (h : c.isDigit = true) :
    jsWhitespace c = false ∧ ¬ c = '-' ∧ ¬ c = '+' := by
  refine ⟨?_, ?_, ?_⟩
  · by_contra hw
    rw [Bool.not_eq_false] at hw
    simp only [jsWhitespace, Bool.or_eq_true, beq_iff_eq] at hw
    rcases hw with ((h1 | h1) | h1) | h1 <;> (subst h1; exact absurd h (by decide))
  · intro h1; subst h1; exact absurd h (by decide)
  · intro h1; subst h1; exact absurd h (by decide)

theorem dropLeadWs_eq_self (l : List Char) (h : ∀ c ∈ l, jsWhitespace c = false) :
    dropLeadWs l = l := by
  cases l with
  | nil => rfl
  | cons c cs => simp [dropLeadWs, h c (by simp)]

theorem trimL_eq_self (l : List Char) (h : ∀ c ∈ l, jsWhitespace c = false) :
    trimL l = l := by
  unfold trimL dropTrailWs
  rw [dropLeadWs_eq_self l.reverse (fun c hc => h c (List.mem_reverse.mp hc)),
    List.reverse_reverse, dropLeadWs_eq_self l h]

theorem leadsWith_append (pat r : List Char) : leadsWith pat (pat ++ r) = true := by
  induction pat with
  | nil => rfl
  | cons p ps ih => simp [leadsWith, ih]

theorem replaceFirstL_cancel (pat r : List Char) : replaceFirstL pat (pat ++ r) = r := by
  cases pat with
  | nil =>
    cases r with
    | nil => rfl
    | cons c cs => simp [replaceFirstL, leadsWith]
  | cons p ps =>
    have hl : leadsWith (p :: ps) (p :: (ps ++ r)) = true := by
      simpa using leadsWith_append (p :: ps) r
    show replaceFirstL (p :: ps) (p :: (ps ++ r)) = r
    simp only [replaceFirstL, hl, if_true]
    simpa using List.drop_left (p :: ps) r

/-- Every character of a clean decimal numeral is a digit or the point; in
particular none is whitespace. -/
theorem cleanDecimalL_chars (l : List Char) (q : ℚ) (h : cleanDecimalL l = some q) :
    ∀ c ∈ l, jsWhitespace c = false := by
  rcases hp1 : takeDigitsL l with ⟨ds1, r1⟩
  have hsplit := takeDigitsL_append l
  have hdig := takeDigitsL_digits l
  rw [hp1] at hsplit hdig
  simp only [cleanDecimalL, hp1] at h
  intro c hc
  rw [← hsplit] at hc
  cases ds1 with
  | nil => simp at h
  | cons a as =>
    rcases List.mem_append.mp hc with hm | hm
    · exact (isDigit_facts (hdig c hm)).1
    · cases r1 with
      | nil => simp at hm
      | cons d t =>
        by_cases hdd : d = '.'
        · subst hdd
          rcases hp2 : takeDigitsL t with ⟨ds2, r2⟩
          have hts := takeDigitsL_append t
          have htd := takeDigitsL_digits t
          rw [hp2] at hts htd
          simp [headIsDot, fracSplit, hp2] at h
          obtain ⟨⟨-, hr2⟩, -⟩ := h
          rw [hr2, List.append_nil] at hts
          rcases List.mem_cons.mp hm with hm2 | hm2
          · subst hm2; decide
          · rw [← hts] at hm2
            exact (isDigit_facts (htd c hm2)).1
        · simp [headIsDot, hdd] at h

/-- A clean decimal numeral parses under `parseFloat` to its clean value. -/
theorem parseFloatL_of_clean (l : List Char) (q : ℚ) (h : cleanDecimalL l = some q) :
    parseFloatL l = some q := by
  rcases hp1 : takeDigitsL l with ⟨ds1, r1⟩
  have hsplit := takeDigitsL_append l
  have hdig := takeDigitsL_digits l
  rw [hp1] at hsplit hdig
  simp only [cleanDecimalL, hp1] at h
  cases ds1 with
  | nil => simp at h
  | cons c cs =>
    have hc : c.isDigit = true := hdig c (by simp)
    obtain ⟨hcw, hcm, hcp⟩ := isDigit_facts hc
    have hl : l = c :: (cs ++ r1) := by rw [← hsplit]; simp
    have hdr : dropLeadWs l = l := by
      rw [hl]; simp [dropLeadWs, hcw]
    have hsg : readSign l = (1, l) := by
      rw [hl]; simp [readSign, hcm, hcp]
    simp only [parseFloatL, hdr, hsg, hp1]
    cases r1 with
    | nil =>
      simp at h
      simp [fracSplit, readExp, powTen, valOfDigits, digitVal, ← h]
    | cons d t =>
      by_cases hdd : d = '.'
      · subst hdd
        rcases hp2 : takeDigitsL t with ⟨ds2, r2⟩
        simp [headIsDot, fracSplit, hp2] at h
        obtain ⟨⟨-, hr2⟩, hval⟩ := h
        subst hr2
        simp [fracSplit, hp2, readExp, powTen, ← hval]
      · simp [headIsDot, hdd] at h

/-! ### Engine and page model

The browser-automation engine is modelled as a resolution map from selector
strings to the matched DOM elements; `none` models a selector the engine
cannot evaluate at all (invalid selector, closed page).  Engine calls return
`Except String α`: an `Except.error` models the engine raising.  A probe on a
locator that matches several elements raises a strict-mode violation; a probe
that must wait for an element (enabled / disabled / checked / text) raises a
timeout when no element matches, while `isVisible` and `count` simply report
`false` / `0` in that case. -/

structure Element where
  visible : Bool
  enabled : Bool
  checked : Bool
  text : Option String
deriving DecidableEq

structure PageState where
  resolve : String → Option (List Element)

/-- Engine `locator(sel).isVisible()`. -/
def engineIsVisible (st : PageState) (sel : String) : Except String Bool :=
  match st.resolve sel with
  | none => .error "selector resolution failed"
  | some [] => .ok false
  | some [e] => .ok e.visible
  | some (_ :: _ :: _) => .error "strict mode violation"

/-- Engine `locator(sel).isEnabled()`. -/
def engineIsEnabled (st : PageState) (sel : String) : Except String Bool :=
  match st.resolve sel with
  | none => .error "selector resolution failed"
  | some [] => .error "timed out waiting for element"
  | some [e] => .ok e.enabled
  | some (_ :: _ :: _) => .error "strict mode violation"

/-- Engine `locator(sel).isDisabled()`. -/
def engineIsDisabled (st : PageState) (sel : String) : Except String Bool :=
  match st.resolve sel with
  | none => .error "selector resolution failed"
  | some [] => .error "timed out waiting for element"
  | some [e] => .ok !e.enabled
  | some (_ :: _ :: _) => .error "strict mode violation"

/-- Engine `locator(sel).isChecked()`. -/
def engineIsChecked (st : PageState) (sel : String) : Except String Bool :=
  match st.resolve sel with
  | none => .error "selector resolution failed"
  | some [] => .error "timed out waiting for element"
  | some [e] => .ok e.checked
  | some (_ :: _ :: _) => .error "strict mode violation"

/-- Engine `locator(sel).count()`. -/
def engineCount (st : PageState) (sel : String) : Except String Nat :=
  match st.resolve sel with
  | none => .error "selector resolution failed"
  | some l => .ok l.length

/-- Engine `locator(sel).textContent()` (may be null). -/
def engineTextContent (st : PageState) (sel : String) : Except String (Option String) :=
  match st.resolve sel with
  | none => .error "selector resolution failed"
  | some [] => .error "timed out waiting for element"
  | some [e] => .ok e.text
  | some (_ :: _ :: _) => .error "strict mode violation"

/-! ### BasePage methods (src/pages/common/BasePage.ts) -/

/-- The try/catch pattern of the state-check family: any engine error is
resolved to `false`. -/
def swallowToFalse (r : Except String Bool) : Bool :=
  match r with
  | .ok b => b
  | .error _ => false

/-- BasePage.isElementVisible: try isVisible catch return false. -/
def isElementVisible (st : PageState) (sel : String) : Bool :=
  swallowToFalse (engineIsVisible st sel)

/-- BasePage.isElementEnabled: try isEnabled catch return false. -/
def isElementEnabled (st : PageState) (sel : String) : Bool :=
  swallowToFalse (engineIsEnabled st sel)

/-- BasePage.isElementDisabled: try isDisabled catch return false. -/
def isElementDisabled (st : PageState) (sel : String) : Bool :=
  swallowToFalse (engineIsDisabled st sel)

/-- BasePage.isElementChecked: try isChecked catch return false. -/
def isElementChecked (st : PageState) (sel : String) : Bool :=
  swallowToFalse (engineIsChecked st sel)

/-- BasePage.isElementPresent: returns `count > 0` with no try/catch of its
own, so an error from the count call propagates. -/
def isElementPresent (st : PageState) (sel : String) : Except String Bool :=
  (engineCount st sel).map (fun n => decide (0 < n))

/-- BasePage.getText: trimmed text content, empty string for a null text. -/
def getText (st : PageState) (sel : String) : Except String String :=
  (engineTextContent st sel).map (fun t => (t.map jsTrim).getD "")

/-- BasePage.getElementCount. -/
def getElementCount (st : PageState) (sel : String) : Except String Nat :=
  engineCount st sel

/-- A successful visibility probe pins down the resolution: exactly one
matched element, and it is visible. -/
theorem isElementVisible_eq_true_iff (st : PageState) (sel : String) :
    isElementVisible st sel = true ↔
      ∃ e, st.resolve sel = some [e] ∧ e.visible = true := by
  unfold isElementVisible engineIsVisible swallowToFalse
  rcases h : st.resolve sel with _ | l
  · simp
  · rcases l with _ | ⟨e, _ | ⟨f, l⟩⟩ <;> simp

/-- When exactly one element matches, getText succeeds and returns the
trimmed text (empty for null). -/
theorem getText_single (st : PageState) (sel : String) (e : Element)
    (h : st.resolve sel = some [e]) :
    getText st sel = .ok ((e.text.map jsTrim).getD "") := by
  unfold getText engineTextContent
  rw [h]
  rfl

/-! ### Claim C3: the state-check family -/

/-- A page state on which every selector fails to resolve, so every
underlying engine call errors. -/
def presentErrState : PageState := ⟨fun _ => none⟩

/-- C3 counterexample: `isElementPresent` does not swallow engine errors —
when the underlying count call errors, the method propagates that error
instead of resolving it to `false` (its body has no try/catch, unlike the
four probe methods above it). -/
theorem isElementPresent_propagates_error :
    engineCount presentErrState "#login-button" = .error "selector resolution failed" ∧
    isElementPresent presentErrState "#login-button" = .error "selector resolution failed" ∧
    isElementPresent presentErrState "#login-button" ≠ .ok false := by
  refine ⟨rfl, rfl, fun h => Except.noConfusion h⟩

/-- C3 (amended): isElementVisible, isElementEnabled, isElementDisabled and
isElementChecked return a boolean and resolve any engine error to `false`;
isElementPresent returns whether the element count is positive and
propagates an engine error from the count call unchanged. -/
theorem stateCheck_swallow_spec (st : PageState) (sel : String) :
    (∀ m, engineIsVisible st sel = .error m → isElementVisible st sel = false) ∧
    (∀ b, engineIsVisible st sel = .ok b → isElementVisible st sel = b) ∧
    (∀ m, engineIsEnabled st sel = .error m → isElementEnabled st sel = false) ∧
    (∀ b, engineIsEnabled st sel = .ok b → isElementEnabled st sel = b) ∧
    (∀ m, engineIsDisabled st sel = .error m → isElementDisabled st sel = false) ∧
    (∀ b, engineIsDisabled st sel = .ok b → isElementDisabled st sel = b) ∧
    (∀ m, engineIsChecked st sel = .error m → isElementChecked st sel = false) ∧
    (∀ b, engineIsChecked st sel = .ok b → isElementChecked st sel = b) ∧
    (∀ m, engineCount st sel = .error m → isElementPresent st sel = .error m) ∧
    (∀ n, engineCount st sel = .ok n → isElementPresent st sel = .ok (decide (0 < n))) := by
  refine ⟨?_, ?_, ?_, ?_, ?_, ?_, ?_, ?_, ?_, ?_⟩ <;>
    intro x h <;>
    simp [isElementVisible, isElementEnabled, isElementDisabled, isElementChecked,
      isElementPresent, swallowToFalse, Except.map, h]

/-- A concrete page state: one checked, disabled, visible element behind
selector "#a"; every other selector fails to resolve. -/
def stC3 : PageState :=
  ⟨fun s => if s = "#a" then some [⟨true, false, true, none⟩] else none⟩

/-- Witness for C3: the amended statement evaluated at concrete states. -/
theorem stateCheck_swallow_spec_instance :
    isElementVisible stC3 "#a" = true ∧
    isElementChecked stC3 "#a" = true ∧
    isElementEnabled stC3 "#b" = false ∧
    isElementPresent stC3 "#b" = .error "selector resolution failed" := by
  have ha := stateCheck_swallow_spec stC3 "#a"
  have hb := stateCheck_swallow_spec stC3 "#b"
  exact ⟨ha.2.1 true rfl, ha.2.2.2.2.2.2.2.1 true rfl,
    hb.2.2.1 "selector resolution failed" rfl,
    hb.2.2.2.2.2.2.2.2.1 "selector resolution failed" rfl⟩

/-! ### Claim C5: error banner accessor (LoginPage, CheckoutStepOnePage) -/

/-- Selector of the error banner, shared by both pages. -/
def errorBannerSel : String := "[data-test=\"error\"]"

/-- The shared body of getErrorMessage: return the banner's trimmed text
when visible, and the empty string otherwise. -/
def getErrorMessageVia (st : PageState) (sel : String) : Except String String :=
  if isElementVisible st sel then getText st sel else .ok ""

/-- LoginPage.getErrorMessage. -/
def loginGetErrorMessage (st : PageState) : Except String String :=
  getErrorMessageVia st errorBannerSel

/-- CheckoutStepOnePage.getErrorMessage. -/
def checkoutStepOneGetErrorMessage (st : PageState) : Except String String :=
  getErrorMessageVia st errorBannerSel

/-- C5: on every page state, getErrorMessage on the login page and checkout
step one never errors; it returns the banner's trimmed text when the banner
is visible and the empty string when the banner is absent, not visible, or
the visibility probe itself errors. -/
theorem getErrorMessage_spec (st : PageState) :
    (∃ s, loginGetErrorMessage st = .ok s ∧ checkoutStepOneGetErrorMessage st = .ok s) ∧
    (isElementVisible st errorBannerSel = false →
      loginGetErrorMessage st = .ok "" ∧ checkoutStepOneGetErrorMessage st = .ok "") ∧
    (∀ e, st.resolve errorBannerSel = some [e] → e.visible = true →
      loginGetErrorMessage st = .ok ((e.text.map jsTrim).getD "") ∧
      checkoutStepOneGetErrorMessage st = .ok ((e.text.map jsTrim).getD "")) ∧
    (st.resolve errorBannerSel = none →
      loginGetErrorMessage st = .ok "" ∧ checkoutStepOneGetErrorMessage st = .ok "") := by
  have hbody : ∀ s, loginGetErrorMessage st = s → checkoutStepOneGetErrorMessage st = s :=
    fun _ h => h
  refine ⟨?_, ?_, ?_, ?_⟩
  · rcases hv : isElementVisible st errorBannerSel with _ | _
    · exact ⟨"", by simp [loginGetErrorMessage, checkoutStepOneGetErrorMessage,
        getErrorMessageVia, hv]⟩
    · obtain ⟨e, hres, -⟩ := (isElementVisible_eq_true_iff st errorBannerSel).mp hv
      refine ⟨(e.text.map jsTrim).getD "", ?_⟩
      have := getText_single st errorBannerSel e hres
      constructor <;>
        simp [loginGetErrorMessage, checkoutStepOneGetErrorMessage, getErrorMessageVia, hv, this]
  · intro hv
    constructor <;>
      simp [loginGetErrorMessage, checkoutStepOneGetErrorMessage, getErrorMessageVia, hv]
  · intro e hres hvis
    have hv : isElementVisible st errorBannerSel = true :=
      (isElementVisible_eq_true_iff st errorBannerSel).mpr ⟨e, hres, hvis⟩
    have := getText_single st errorBannerSel e hres
    constructor <;>
      simp [loginGetErrorMessage, checkoutStepOneGetErrorMessage, getErrorMessageVia, hv, this]
  · intro hres
    have hv : isElementVisible st errorBannerSel = false := by
      simp [isElementVisible, engineIsVisible, swallowToFalse, hres]
    constructor <;>
      simp [loginGetErrorMessage, checkoutStepOneGetErrorMessage, getErrorMessageVia, hv]

/-- A login page state showing an error banner with padded text. -/
def stC5 : PageState :=
  ⟨fun s => if s = errorBannerSel then
      some [⟨true, true, false, some "  Epic sadface: Username is required "⟩]
    else none⟩

/-- Witness for C5: at a state with a visible banner, both accessors return
the trimmed banner text. -/
theorem getErrorMessage_spec_instance :
    loginGetErrorMessage stC5 = .ok "Epic sadface: Username is required" ∧
    checkoutStepOneGetErrorMessage stC5 = .ok "Epic sadface: Username is required" := by
  have h := (getErrorMessage_spec stC5).2.2.1
    ⟨true, true, false, some "  Epic sadface: Username is required "⟩ (by rfl) rfl
  exact ⟨h.1.trans (by rfl), h.2.trans (by rfl)⟩

/-! ### Claim C6: cart badge count (InventoryPage.getCartItemCount) -/

/-- Selector of the cart badge. -/
def cartBadgeSel : String := ".shopping_cart_badge"

/-- InventoryPage.getCartItemCount: 0 when the badge is not visible,
otherwise parseInt of the badge's trimmed text (none models NaN). -/
def inventoryGetCartItemCount (st : PageState) : Except String (Option Int) :=
  if isElementVisible st cartBadgeSel then (getText st cartBadgeSel).map parseIntDec
  else .ok (some 0)

/-- C6: getCartItemCount reports zero whenever the badge is not visible, and
otherwise the integer parsed from the badge's trimmed text; the absence of
the badge is never reported as an error. -/
theorem getCartItemCount_spec (st : PageState) :
    (∃ v, inventoryGetCartItemCount st = .ok v) ∧
    (isElementVisible st cartBadgeSel = false →
      inventoryGetCartItemCount st = .ok (some 0)) ∧
    (st.resolve cartBadgeSel = none → inventoryGetCartItemCount st = .ok (some 0)) ∧
    (∀ e, st.resolve cartBadgeSel = some [e] → e.visible = true →
      inventoryGetCartItemCount st = .ok (parseIntDec ((e.text.map jsTrim).getD ""))) := by
  refine ⟨?_, ?_, ?_, ?_⟩
  · rcases hv : isElementVisible st cartBadgeSel with _ | _
    · exact ⟨some 0, by simp [inventoryGetCartItemCount, hv]⟩
    · obtain ⟨e, hres, -⟩ := (isElementVisible_eq_true_iff st cartBadgeSel).mp hv
      refine ⟨parseIntDec ((e.text.map jsTrim).getD ""), ?_⟩
      have := getText_single st cartBadgeSel e hres
      simp [inventoryGetCartItemCount, hv, this, Except.map]
  · intro hv
    simp [inventoryGetCartItemCount, hv]
  · intro hres
    have hv : isElementVisible st cartBadgeSel = false := by
      simp [isElementVisible, engineIsVisible, swallowToFalse, hres]
    simp [inventoryGetCartItemCount, hv]
  · intro e hres hvis
    have hv : isElementVisible st cartBadgeSel = true :=
      (isElementVisible_eq_true_iff st cartBadgeSel).mpr ⟨e, hres, hvis⟩
    have := getText_single st cartBadgeSel e hres
    simp [inventoryGetCartItemCount, hv, this, Except.map]

/-- An inventory page state whose cart badge shows "2". -/
def stC6 : PageState :=
  ⟨fun s => if s = cartBadgeSel then some [⟨true, true, false, some "2"⟩] else none⟩

/-- An inventory page state with no cart badge in the DOM at all. -/
def stC6empty : PageState :=
  ⟨fun s => if s = cartBadgeSel then some [] else none⟩

/-- Witness for C6: badge showing "2" yields 2; an absent badge yields 0. -/
theorem getCartItemCount_spec_instance :
    inventoryGetCartItemCount stC6 = .ok (some 2) ∧
    inventoryGetCartItemCount stC6empty = .ok (some 0) := by
  have h2 := (getCartItemCount_spec stC6).2.2.2 ⟨true, true, false, some "2"⟩ (by rfl) rfl
  have h0 := (getCartItemCount_spec stC6empty).2.1 (by rfl)
  exact ⟨h2.trans (by rfl), h0⟩

/-! ### Claims C2 and C10: by-name scans over listed items

InventoryPage.addProductToCartByName, InventoryPage.removeProductFromCartByName
and CartPage.removeItemByName all run the same loop: list the item containers,
read each item's title text, click the appropriate button inside the first
item whose trimmed title strict-equals the argument, and throw a descriptive
not-found error after the loop.  An item is modelled by the text of its title
element (null possible) and, for cart lines, the text of its quantity cell.
The result of a scan is the 0-based index of the item whose button was
clicked, or the thrown error message. -/

structure LineItem where
  title : Option String
  qty : Option String
deriving DecidableEq

/-- The loop's per-item test: `name?.trim() === productName` (false when the
title text is null). -/
def titleMatches (it : LineItem) (nm : String) : Bool :=
  match it.title with
  | some s => jsTrim s == nm
  | none => false

/-- The shared scan loop body, accumulating the current index. -/
def scanByNameAux (nm : String) (msg : String) : List LineItem → Nat → Except String Nat
  | [], _ => .error msg
  | it :: rest, i => if titleMatches it nm then .ok i else scanByNameAux nm msg rest (i + 1)

/-- InventoryPage.addProductToCartByName. -/
def addProductToCartByName (items : List LineItem) (nm : String) : Except String Nat :=
  scanByNameAux nm ("Product \"" ++ nm ++ "\" not found") items 0

/-- InventoryPage.removeProductFromCartByName. -/
def removeProductFromCartByName (items : List LineItem) (nm : String) : Except String Nat :=
  scanByNameAux nm ("Product \"" ++ nm ++ "\" not found for removal") items 0

/-- CartPage.removeItemByName. -/
def cartRemoveItemByName (items : List LineItem) (nm : String) : Except String Nat :=
  scanByNameAux nm ("Product \"" ++ nm ++ "\" not found in cart for removal") items 0

/-- Position of the first item whose trimmed title equals the name exactly,
as the claim words it. -/
def specFirstMatch (nm : String) : List LineItem → Option Nat
  | [] => none
  | it :: rest =>
    if titleMatches it nm then some 0 else (specFirstMatch nm rest).map (· + 1)

theorem scanByNameAux_match (nm msg : String) :
    ∀ (items : List LineItem) (i k : Nat), specFirstMatch nm items = some k →
      scanByNameAux nm msg items i = .ok (i + k) := by
  intro items
  induction items with
  | nil => intro i k h; simp [specFirstMatch] at h
  | cons it rest ih =>
    intro i k h
    by_cases hm : titleMatches it nm
    · simp [specFirstMatch, hm] at h
      simp [scanByNameAux, hm, ← h]
    · simp [specFirstMatch, hm] at h
      obtain ⟨j, hj, hk⟩ := h
      have := ih (i + 1) j hj
      simp [scanByNameAux, hm, this, ← hk]
      omega

theorem scanByNameAux_nomatch (nm msg : String) :
    ∀ (items : List LineItem) (i : Nat), specFirstMatch nm items = none →
      scanByNameAux nm msg items i = .error msg := by
  intro items
  induction items with
  | nil => intro i _; rfl
  | cons it rest ih =>
    intro i h
    by_cases hm : titleMatches it nm
    · simp [specFirstMatch, hm] at h
    · simp [specFirstMatch, hm] at h
      simp [scanByNameAux, hm, ih (i + 1) h]

/-- C2: the three by-name operations click the button of the first item whose
trimmed title equals the argument exactly, and when no item matches they fail
with their descriptive not-found error rather than silently succeeding. -/
theorem byName_scan_spec (items : List LineItem) (nm : String) :
    (∀ k, specFirstMatch nm items = some k →
      addProductToCartByName items nm = .ok k ∧
      removeProductFromCartByName items nm = .ok k ∧
      cartRemoveItemByName items nm = .ok k) ∧
    (specFirstMatch nm items = none →
      addProductToCartByName items nm = .error ("Product \"" ++ nm ++ "\" not found") ∧
      removeProductFromCartByName items nm =
        .error ("Product \"" ++ nm ++ "\" not found for removal") ∧
      cartRemoveItemByName items nm =
        .error ("Product \"" ++ nm ++ "\" not found in cart for removal")) := by
  constructor
  · intro k h
    refine ⟨?_, ?_, ?_⟩ <;>
      simpa using scanByNameAux_match nm _ items 0 k h
  · intro h
    exact ⟨scanByNameAux_nomatch nm _ items 0 h, scanByNameAux_nomatch nm _ items 0 h,
      scanByNameAux_nomatch nm _ items 0 h⟩

/-- A concrete listing: backpack (padded title), bike light, a null title. -/
def itemsC2 : List LineItem :=
  [⟨some " Sauce Labs Backpack ", some "1"⟩,
   ⟨some "Sauce Labs Bike Light", some "1"⟩,
   ⟨none, none⟩]

/-- Witness for C2: the second item is matched after trimming; an unknown
name produces the not-found errors. -/
theorem byName_scan_spec_instance :
    addProductToCartByName itemsC2 "Sauce Labs Bike Light" = .ok 1 ∧
    cartRemoveItemByName itemsC2 "Sauce Labs Onesie" =
      .error ("Product \"" ++ "Sauce Labs Onesie" ++ "\" not found in cart for removal") := by
  have h1 := (byName_scan_spec itemsC2 "Sauce Labs Bike Light").1 1 (by decide)
  have h2 := (byName_scan_spec itemsC2 "Sauce Labs Onesie").2 (by decide)
  exact ⟨h1.1, h2.2.2⟩

/-! ### Claim C10: CartPage.getItemQuantity -/

/-- Normalisation of a quantity cell's text: `quantityText?.trim() || '0'`
(null or all-whitespace text becomes "0"). -/
def qtyNormalized (it : LineItem) : String :=
  match it.qty with
  | none => "0"
  | some s => if jsTrim s = "" then "0" else jsTrim s

/-- CartPage.getItemQuantity: scan for the first title match and parseInt its
quantity text; return 0 when no line matches (no error is raised). -/
def getItemQuantity (items : List LineItem) (nm : String) : Option Int :=
  match items with
  | [] => some 0
  | it :: rest =>
    if titleMatches it nm then parseIntDec (qtyNormalized it)
    else getItemQuantity rest nm

theorem getItemQuantity_match (nm : String) :
    ∀ (items : List LineItem) (k : Nat) (it : LineItem),
      specFirstMatch nm items = some k → items[k]? = some it →
      getItemQuantity items nm = parseIntDec (qtyNormalized it) := by
  intro items
  induction items with
  | nil => intro k it h _; simp [specFirstMatch] at h
  | cons hd rest ih =>
    intro k it h hget
    by_cases hm : titleMatches hd nm
    · simp [specFirstMatch, hm] at h
      subst h
      simp at hget
      subst hget
      simp [getItemQuantity, hm]
    · simp [specFirstMatch, hm] at h
      obtain ⟨j, hj, hk⟩ := h
      subst hk
      simp at hget
      simp [getItemQuantity, hm, ih j it hj hget]

theorem getItemQuantity_nomatch (nm : String) :
    ∀ items : List LineItem, specFirstMatch nm items = none →
      getItemQuantity items nm = some 0 := by
  intro items
  induction items with
  | nil => intro _; rfl
  | cons hd rest ih =>
    intro h
    by_cases hm : titleMatches hd nm
    · simp [specFirstMatch, hm] at h
    · simp [specFirstMatch, hm] at h
      simp [getItemQuantity, hm, ih h]

/-- C10: getItemQuantity returns 0 rather than raising when no cart line's
trimmed title matches exactly — unlike removeItemByName on the same page —
and on the first matching line it returns the integer parsed from that
line's quantity text, with an absent quantity text read as 0. -/
theorem getItemQuantity_spec (items : List LineItem) (nm : String) :
    (specFirstMatch nm items = none →
      getItemQuantity items nm = some 0 ∧
      cartRemoveItemByName items nm =
        .error ("Product \"" ++ nm ++ "\" not found in cart for removal")) ∧
    (∀ k it, specFirstMatch nm items = some k → items[k]? = some it →
      getItemQuantity items nm = parseIntDec (qtyNormalized it)) ∧
    (∀ t, parseIntDec (qtyNormalized ⟨t, none⟩) = some 0) := by
  refine ⟨?_, ?_, ?_⟩
  · intro h
    exact ⟨getItemQuantity_nomatch nm items h, scanByNameAux_nomatch nm _ items 0 h⟩
  · intro k it h hget
    exact getItemQuantity_match nm items k it h hget
  · intro t; rfl

/-- A concrete cart: one line for the backpack with quantity text " 3 ". -/
def itemsC10 : List LineItem :=
  [⟨some "Sauce Labs Backpack", some " 3 "⟩]

/-- Witness for C10: a missing product quantity reads as 0 while the same
name makes removeItemByName fail; a matched line's quantity parses from its
trimmed text. -/
theorem getItemQuantity_spec_instance :
    getItemQuantity itemsC10 "Sauce Labs Onesie" = some 0 ∧
    getItemQuantity itemsC10 "Sauce Labs Backpack" = some 3 := by
  have h0 := (getItemQuantity_spec itemsC10 "Sauce Labs Onesie").1 (by decide)
  have h3 := (getItemQuantity_spec itemsC10 "Sauce Labs Backpack").2.1 0
    ⟨some "Sauce Labs Backpack", some " 3 "⟩ (by decide) (by decide)
  exact ⟨h0.1, h3.trans (by rfl)⟩

/-! ### Claim C4: CartPage.removeAllItems

The loop reads the cart item count, and while it is positive removes the
item at index 0, waits a fixed 300 ms, and re-reads the count.  The live
cart is an external state of abstract type `S`; `count` models what
getCartItemCount reports and `step` the state change performed by
removeItemByIndex(0) followed by the settle wait.  The loop is embedded
with fuel equal to the initially read count, which suffices exactly when
each removal strictly decreases the count.  The observable actions of each
iteration are recorded as events. -/

inductive CartEvent where
  | removeAt (i : Nat)
  | waitMs (ms : Nat)
deriving DecidableEq

/-- The body of CartPage.removeAllItems, with fuel. -/
def removeAllItemsFuel {S : Type} (count : S → Nat) (step : S → S) :
    Nat → S → S × List CartEvent
  | 0, s => (s, [])
  | fuel + 1, s =>
    if count s = 0 then (s, [])
    else
      let r := removeAllItemsFuel count step fuel (step s)
      (r.1, CartEvent.removeAt 0 :: CartEvent.waitMs 300 :: r.2)

/-- CartPage.removeAllItems: poll-until-empty starting from the initially
read count. -/
def removeAllItems {S : Type} (count : S → Nat) (step : S → S) (s : S) :
    S × List CartEvent :=
  removeAllItemsFuel count step (count s) s

theorem removeAllItemsFuel_spec {S : Type} (count : S → Nat) (step : S → S)
    (hdec : ∀ s, 0 < count s → count (step s) < count s) :
    ∀ (fuel : Nat) (s : S), count s ≤ fuel →
      count (removeAllItemsFuel count step fuel s).1 = 0 ∧
      ∃ k ≤ count s, (removeAllItemsFuel count step fuel s).2 =
        (List.replicate k [CartEvent.removeAt 0, CartEvent.waitMs 300]).flatten := by
  intro fuel
  induction fuel with
  | zero =>
    intro s hs
    refine ⟨?_, 0, by omega, by simp [removeAllItemsFuel]⟩
    simp only [removeAllItemsFuel]
    omega
  | succ n ih =>
    intro s hs
    by_cases h0 : count s = 0
    · exact ⟨by simp [removeAllItemsFuel, h0], 0, by omega, by simp [removeAllItemsFuel, h0]⟩
    · have hlt : count (step s) < count s := hdec s (by omega)
      obtain ⟨hz, k, hk, hev⟩ := ih (step s) (by omega)
      refine ⟨by simp [removeAllItemsFuel, h0, hz], k + 1, by omega, ?_⟩
      simp [removeAllItemsFuel, h0, hev, List.replicate_succ]

/-- C4: if each removeItemByIndex(0) strictly decreases the reported count,
removeAllItems terminates with a reported count of zero, and its trace is a
sequence of iterations, each removing index 0 and then waiting 300 ms, at
most one per initially counted item. -/
theorem removeAllItems_spec {S : Type} (count : S → Nat) (step : S → S)
    (hdec : ∀ s, 0 < count s → count (step s) < count s) (s : S) :
    count (removeAllItems count step s).1 = 0 ∧
    ∃ k ≤ count s, (removeAllItems count step s).2 =
      (List.replicate k [CartEvent.removeAt 0, CartEvent.waitMs 300]).flatten :=
  removeAllItemsFuel_spec count step hdec (count s) s (le_refl _)

/-- Witness for C4: a cart modelled by its size, with removal dropping one
item, empties from 3 items in three remove-then-wait iterations. -/
theorem removeAllItems_spec_instance :
    (fun n => n) (removeAllItems (fun n : Nat => n) (fun n => n - 1) 3).1 = 0 ∧
    ∃ k ≤ (fun n : Nat => n) 3, (removeAllItems (fun n : Nat => n) (fun n => n - 1) 3).2 =
      (List.replicate k [CartEvent.removeAt 0, CartEvent.waitMs 300]).flatten :=
  removeAllItems_spec (fun n => n) (fun n => n - 1) (fun s hs => Nat.sub_lt hs one_pos) 3

/-! ### Claim C7: the retry helper (src/utils/helpers.ts)

`retry(fn, maxAttempts, delay)` loops attempt = 1..maxAttempts: it invokes
`fn`, returns its value on success, and on a throw records the error and
sleeps the fixed delay — but only when further attempts remain; after the
loop it throws the last recorded error.  The fallible `fn` is modelled as a
map from the attempt number to that invocation's outcome; the embedding
returns the overall outcome together with the number of invocations made
and the number of fixed-delay sleeps performed. -/

structure RetryResult (α : Type) where
  result : Except String α
  calls : Nat
  sleeps : Nat

/-- The retry loop at a given attempt number with a given number of
remaining attempts; `lastErr` is the last recorded error. -/
def retryGo {α : Type} (fn : Nat → Except String α) (attempt : Nat) :
    Nat → Option String → RetryResult α
  | 0, lastErr => ⟨.error (lastErr.getD "Retry failed"), 0, 0⟩
  | remaining + 1, lastErr =>
    match fn attempt with
    | .ok v => ⟨.ok v, 1, 0⟩
    | .error e =>
      let r := retryGo fn (attempt + 1) remaining (some e)
      ⟨r.result, r.calls + 1, r.sleeps + (if remaining = 0 then 0 else 1)⟩

/-- helpers.retry: attempts 1..maxAttempts. -/
def retry {α : Type} (fn : Nat → Except String α) (maxAttempts : Nat) : RetryResult α :=
  retryGo fn 1 maxAttempts none

/-- The first attempt number in the window that succeeds, if any. -/
def firstOkFrom {α : Type} (fn : Nat → Except String α) (attempt : Nat) :
    Nat → Option Nat
  | 0 => none
  | remaining + 1 =>
    if (fn attempt).isOk then some attempt else firstOkFrom fn (attempt + 1) remaining

/-- The first attempt in 1..maxAttempts that succeeds, if any. -/
def firstOkAttempt {α : Type} (fn : Nat → Except String α) (maxAttempts : Nat) : Option Nat :=
  firstOkFrom fn 1 maxAttempts

theorem retryGo_spec {α : Type} (fn : Nat → Except String α) :
    ∀ (remaining attempt : Nat) (lastErr : Option String), 1 ≤ remaining →
      (1 ≤ (retryGo fn attempt remaining lastErr).calls ∧
        (retryGo fn attempt remaining lastErr).calls ≤ remaining ∧
        (retryGo fn attempt remaining lastErr).sleeps =
          (retryGo fn attempt remaining lastErr).calls - 1) ∧
      (∀ k, firstOkFrom fn attempt remaining = some k →
        (retryGo fn attempt remaining lastErr).result = fn k ∧
        (retryGo fn attempt remaining lastErr).calls + attempt = k + 1) ∧
      (firstOkFrom fn attempt remaining = none →
        (∃ e, fn (attempt + remaining - 1) = .error e ∧
          (retryGo fn attempt remaining lastErr).result = .error e) ∧
        (retryGo fn attempt remaining lastErr).calls = remaining) := by
  intro remaining
  induction remaining with
  | zero => intro _ _ h; omega
  | succ n ih =>
    intro attempt lastErr _
    rcases hfn : fn attempt with e | v
    · have hok : (fn attempt).isOk = false := by simp [hfn, Except.isOk, Except.toBool]
      by_cases hn : n = 0
      · subst hn
        refine ⟨⟨?_, ?_, ?_⟩, ?_, ?_⟩
        · simp [retryGo, hfn]
        · simp [retryGo, hfn]
        · simp [retryGo, hfn]
        · intro k hk
          simp [firstOkFrom, hfn, Except.isOk, Except.toBool] at hk
        · intro _
          exact ⟨⟨e, by simpa using hfn, by simp [retryGo, hfn]⟩, by simp [retryGo, hfn]⟩
      · have h1 : 1 ≤ n := by omega
        obtain ⟨⟨hc1, hc2, hsl⟩, hsome, hnone⟩ := ih (attempt + 1) (some e) h1
        refine ⟨⟨?_, ?_, ?_⟩, ?_, ?_⟩
        · simp [retryGo, hfn]
        · simp [retryGo, hfn]; omega
        · simp [retryGo, hfn, hn, hsl]; omega
        · intro k hk
          simp [firstOkFrom, hok] at hk
          obtain ⟨hres, hcal⟩ := hsome k hk
          constructor
          · simp [retryGo, hfn, hres]
          · simp [retryGo, hfn]; omega
        · intro hk
          simp [firstOkFrom, hok] at hk
          obtain ⟨⟨e2, he2, hres⟩, hcal⟩ := hnone hk
          refine ⟨⟨e2, ?_, ?_⟩, ?_⟩
          · have : attempt + 1 + n - 1 = attempt + (n + 1) - 1 := by omega
            rw [← this]; exact he2
          · simp [retryGo, hfn, hres]
          · simp [retryGo, hfn, hcal]
    · refine ⟨⟨?_, ?_, ?_⟩, ?_, ?_⟩
      · simp [retryGo, hfn]
      · simp [retryGo, hfn]
      · simp [retryGo, hfn]
      · intro k hk
        simp [firstOkFrom, hfn, Except.isOk, Except.toBool] at hk
        subst hk
        exact ⟨by simp [retryGo, hfn], by simp [retryGo, hfn]; omega⟩
      · intro hk
        simp [firstOkFrom, hfn, Except.isOk, Except.toBool] at hk

/-- C7: with maxAttempts at least 1, retry invokes fn at most maxAttempts
times and at least once, returns the result of the first successful
invocation, throws the error of the last attempt when every invocation
throws, and sleeps the fixed delay exactly once between consecutive
attempts — never after the final failed one. -/
theorem retry_spec {α : Type} (fn : Nat → Except String α) (maxAttempts : Nat)
    (h : 1 ≤ maxAttempts) :
    (1 ≤ (retry fn maxAttempts).calls ∧
      (retry fn maxAttempts).calls ≤ maxAttempts ∧
      (retry fn maxAttempts).sleeps = (retry fn maxAttempts).calls - 1) ∧
    (∀ k, firstOkAttempt fn maxAttempts = some k →
      (retry fn maxAttempts).result = fn k ∧ (retry fn maxAttempts).calls = k) ∧
    (firstOkAttempt fn maxAttempts = none →
      (∃ e, fn maxAttempts = .error e ∧ (retry fn maxAttempts).result = .error e) ∧
      (retry fn maxAttempts).calls = maxAttempts) := by
  simp only [retry, firstOkAttempt]
  obtain ⟨hb, hsome, hnone⟩ := retryGo_spec fn maxAttempts 1 none h
  refine ⟨hb, ?_, ?_⟩
  · intro k hk
    obtain ⟨hres, hcal⟩ := hsome k hk
    exact ⟨hres, by omega⟩
  · intro hk
    obtain ⟨⟨e, he, hres⟩, hcal⟩ := hnone hk
    have : 1 + maxAttempts - 1 = maxAttempts := by omega
    rw [this] at he
    exact ⟨⟨e, he, hres⟩, hcal⟩

/-- A function whose first invocation throws and whose second succeeds. -/
def fnC7 : Nat → Except String Nat :=
  fun k => if k = 2 then .ok 7 else .error "boom"

/-- Witness for C7: with three allowed attempts, retry calls fnC7 twice,
returns the second invocation's value, and sleeps once. -/
theorem retry_spec_instance :
    (retry fnC7 3).result = fnC7 2 ∧ (retry fnC7 3).calls = 2 ∧
    (retry fnC7 3).sleeps = (retry fnC7 3).calls - 1 := by
  have h := retry_spec fnC7 3 (by omega)
  have h2 := h.2.1 2 (by decide)
  exact ⟨h2.1, h2.2, h.1.2.2⟩

/-! ### Claim C8: sortedness checks (src/utils/helpers.ts)

`isSortedAscending` walks adjacent pairs and fails on a strict descent;
`isSortedDescending` symmetrically fails on a strict ascent.  Prices are
exact rationals here. -/

/-- helpers.isSortedAscending. -/
def isSortedAscending : List ℚ → Bool
  | [] => true
  | [_] => true
  | a :: b :: rest => if a > b then false else isSortedAscending (b :: rest)

/-- helpers.isSortedDescending. -/
def isSortedDescending : List ℚ → Bool
  | [] => true
  | [_] => true
  | a :: b :: rest => if a < b then false else isSortedDescending (b :: rest)

/-- The six catalog prices sorted low to high (data/products.ts
pricesLowToHigh); the two 15.99 items are adjacent and equal. -/
def pricesLowToHigh : List ℚ :=
  [799/100, 999/100, 1599/100, 1599/100, 2999/100, 4999/100]

/-- The catalog prices sorted high to low (data/products.ts pricesHighToLow). -/
def pricesHighToLow : List ℚ :=
  pricesLowToHigh.reverse

theorem isSortedAscending_iff :
    ∀ arr : List ℚ, isSortedAscending arr = true ↔ List.Chain' (· ≤ ·) arr := by
  intro arr
  match arr with
  | [] => simp [isSortedAscending]
  | [a] => simp [isSortedAscending]
  | a :: b :: rest =>
    rw [List.chain'_cons]
    constructor
    · intro h
      by_cases hab : a > b
      · simp [isSortedAscending, hab] at h
      · exact ⟨not_lt.mp hab, (isSortedAscending_iff (b :: rest)).mp
          (by simpa [isSortedAscending, hab] using h)⟩
    · intro ⟨hab, hrest⟩
      have hn : ¬ a > b := not_lt.mpr hab
      simpa [isSortedAscending, hn] using (isSortedAscending_iff (b :: rest)).mpr hrest

theorem isSortedDescending_iff :
    ∀ arr : List ℚ, isSortedDescending arr = true ↔ List.Chain' (· ≥ ·) arr := by
  intro arr
  match arr with
  | [] => simp [isSortedDescending]
  | [a] => simp [isSortedDescending]
  | a :: b :: rest =>
    rw [List.chain'_cons]
    constructor
    · intro h
      by_cases hab : a < b
      · simp [isSortedDescending, hab] at h
      · exact ⟨not_lt.mp hab, (isSortedDescending_iff (b :: rest)).mp
          (by simpa [isSortedDescending, hab] using h)⟩
    · intro ⟨hab, hrest⟩
      have hn : ¬ a < b := not_lt.mpr hab
      simpa [isSortedDescending, hn] using (isSortedDescending_iff (b :: rest)).mpr hrest

/-- C8: the ascending check accepts exactly the lists in which every
adjacent pair is non-decreasing, the descending check exactly those in which
every adjacent pair is non-increasing; in particular the catalog's price
orderings, which contain two equal adjacent 15.99 entries, are accepted. -/
theorem sortedChecks_spec :
    (∀ arr : List ℚ, isSortedAscending arr = true ↔ List.Chain' (· ≤ ·) arr) ∧
    (∀ arr : List ℚ, isSortedDescending arr = true ↔ List.Chain' (· ≥ ·) arr) ∧
    pricesLowToHigh.count (1599/100 : ℚ) = 2 ∧
    isSortedAscending pricesLowToHigh = true ∧
    isSortedDescending pricesHighToLow = true := by
  refine ⟨isSortedAscending_iff, isSortedDescending_iff, ?_, ?_, ?_⟩
  · norm_num [pricesLowToHigh, List.count_cons]
  · norm_num [pricesLowToHigh, isSortedAscending]
  · norm_num [pricesHighToLow, pricesLowToHigh, isSortedDescending]

/-- Witness for C8: both directions of the equivalences evaluated at short
concrete price lists with an equal adjacent pair. -/
theorem sortedChecks_spec_instance :
    isSortedAscending [(1 : ℚ), 2, 2] = true ∧
    isSortedDescending [(1 : ℚ), 2, 2] = false := by
  constructor
  · exact (sortedChecks_spec.1 [(1 : ℚ), 2, 2]).mpr
      (by norm_num [List.chain'_cons, List.chain'_singleton])
  · rcases hb : isSortedDescending [(1 : ℚ), 2, 2] with _ | _
    · rfl
    · have := (sortedChecks_spec.2.1 [(1 : ℚ), 2, 2]).mp hb
      rw [List.chain'_cons] at this
      exact absurd this.1 (by norm_num)

/-! ### Claim C1: CheckoutStepTwoPage.verifyTotalCalculation -/

/-- Selector of the item subtotal label. -/
def itemTotalSel : String := ".summary_subtotal_label"

/-- Selector of the tax label. -/
def taxSel : String := ".summary_tax_label"

/-- Selector of the total label. -/
def totalSel : String := ".summary_total_label"

/-- CheckoutStepTwoPage.getItemTotal: trimmed text with the label's first
occurrence removed, trimmed again. -/
def getItemTotal (st : PageState) : Except String String :=
  (getText st itemTotalSel).map (fun t => jsTrim (jsReplaceFirst t "Item total: "))

/-- CheckoutStepTwoPage.getTax. -/
def getTax (st : PageState) : Except String String :=
  (getText st taxSel).map (fun t => jsTrim (jsReplaceFirst t "Tax: "))

/-- CheckoutStepTwoPage.getTotal. -/
def getTotal (st : PageState) : Except String String :=
  (getText st totalSel).map (fun t => jsTrim (jsReplaceFirst t "Total: "))

/-- CheckoutStepTwoPage.getItemTotalAsNumber: parseFloat after removing the
first dollar sign. -/
def getItemTotalAsNumber (st : PageState) : Except String (Option ℚ) :=
  (getItemTotal st).map (fun s => parseFloatQ (jsReplaceFirst s "$"))

/-- CheckoutStepTwoPage.getTaxAsNumber. -/
def getTaxAsNumber (st : PageState) : Except String (Option ℚ) :=
  (getTax st).map (fun s => parseFloatQ (jsReplaceFirst s "$"))

/-- CheckoutStepTwoPage.getTotalAsNumber. -/
def getTotalAsNumber (st : PageState) : Except String (Option ℚ) :=
  (getTotal st).map (fun s => parseFloatQ (jsReplaceFirst s "$"))

/-- CheckoutStepTwoPage.verifyTotalCalculation: read the three numbers in
order and compare total against subtotal plus tax with strict tolerance
0.01; any NaN (modelled `none`) makes the comparison false, as in
JavaScript. -/
def verifyTotalCalculation (st : PageState) : Except String Bool :=
  match getItemTotalAsNumber st with
  | .error m => .error m
  | .ok a =>
    match getTaxAsNumber st with
    | .error m => .error m
    | .ok b =>
      match getTotalAsNumber st with
      | .error m => .error m
      | .ok c =>
        .ok (match a, b, c with
          | some x, some y, some z => decide (|z - (x + y)| < (1 : ℚ)/100)
          | _, _, _ => false)

/-- Strip one leading dollar sign, if present. -/
def stripLeadDollar : List Char → List Char
  | [] => []
  | c :: r => if c = '$' then r else c :: r

/-- The claim's extraction procedure, as the specification words it: take
the element's trimmed text, strip the label prefix, strip a leading dollar
sign, and parse the remainder as a decimal number. -/
def claimLabelNumber (label t : String) : Option ℚ :=
  if leadsWith label.data t.data then
    parseFloatL (stripLeadDollar (t.data.drop label.length))
  else none

theorem label_dollar_data (L n : String) :
    ((L ++ "$") ++ n).data = L.data ++ ('$' :: n.data) := by
  show (L.data ++ ['$']) ++ n.data = L.data ++ ('$' :: n.data)
  simp

/-- The code path of the numeric getters on a well-formed display text. -/
theorem code_number (L n : String) (q : ℚ) (hq : cleanDecimal n = some q) :
    parseFloatQ (jsReplaceFirst (jsTrim (jsReplaceFirst ((L ++ "$") ++ n) L)) "$") = some q := by
  have hchars : ∀ c ∈ n.data, jsWhitespace c = false := cleanDecimalL_chars n.data q hq
  have h1 : jsReplaceFirst ((L ++ "$") ++ n) L = ⟨'$' :: n.data⟩ := by
    apply string_eq_of_data
    show replaceFirstL L.data ((L ++ "$") ++ n).data = '$' :: n.data
    rw [label_dollar_data, replaceFirstL_cancel]
  rw [h1]
  have h2 : jsTrim ⟨'$' :: n.data⟩ = ⟨'$' :: n.data⟩ := by
    apply string_eq_of_data
    show trimL ('$' :: n.data) = '$' :: n.data
    apply trimL_eq_self
    intro c hc
    rcases List.mem_cons.mp hc with hc2 | hc2
    · subst hc2; decide
    · exact hchars c hc2
  rw [h2]
  have h3 : jsReplaceFirst ⟨'$' :: n.data⟩ "$" = ⟨n.data⟩ := by
    apply string_eq_of_data
    show replaceFirstL ['$'] ('$' :: n.data) = n.data
    exact replaceFirstL_cancel ['$'] n.data
  rw [h3]
  exact parseFloatL_of_clean n.data q hq

/-- The claim's extraction procedure on a well-formed display text. -/
theorem spec_number (L n : String) (q : ℚ) (hq : cleanDecimal n = some q) :
    claimLabelNumber L ((L ++ "$") ++ n) = some q := by
  have hlw : leadsWith L.data ((L ++ "$") ++ n).data = true := by
    rw [label_dollar_data]
    exact leadsWith_append L.data ('$' :: n.data)
  have hdrop : ((L ++ "$") ++ n).data.drop L.length = '$' :: n.data := by
    rw [label_dollar_data]
    exact List.drop_left L.data ('$' :: n.data)
  simp only [claimLabelNumber, hlw, if_true, hdrop, stripLeadDollar, if_pos rfl]
  exact parseFloatL_of_clean n.data q hq

/-- C1: on a checkout-step-two state whose three summary labels display
well-formed amounts, the three numbers extracted by the claim's procedure
are the displayed amounts, and verifyTotalCalculation returns true exactly
when the displayed total is within 0.01 of the displayed subtotal plus the
displayed tax. -/
theorem verifyTotalCalculation_spec (st : PageState) (n1 n2 n3 : String) (q1 q2 q3 : ℚ)
    (h1 : getText st itemTotalSel = .ok ("Item total: $" ++ n1))
    (e1 : cleanDecimal n1 = some q1)
    (h2 : getText st taxSel = .ok ("Tax: $" ++ n2))
    (e2 : cleanDecimal n2 = some q2)
    (h3 : getText st totalSel = .ok ("Total: $" ++ n3))
    (e3 : cleanDecimal n3 = some q3) :
    claimLabelNumber "Item total: " ("Item total: $" ++ n1) = some q1 ∧
    claimLabelNumber "Tax: " ("Tax: $" ++ n2) = some q2 ∧
    claimLabelNumber "Total: " ("Total: $" ++ n3) = some q3 ∧
    verifyTotalCalculation st = .ok (decide (|q3 - (q1 + q2)| < (1 : ℚ)/100)) ∧
    (verifyTotalCalculation st = .ok true ↔ |q3 - (q1 + q2)| < (1 : ℚ)/100) := by
  have ha : getItemTotalAsNumber st = .ok (some q1) := by
    rw [getItemTotalAsNumber, getItemTotal, h1]
    show Except.ok (parseFloatQ (jsReplaceFirst (jsTrim
      (jsReplaceFirst (("Item total: " ++ "$") ++ n1) "Item total: ")) "$")) = .ok (some q1)
    rw [code_number "Item total: " n1 q1 e1]
  have hb : getTaxAsNumber st = .ok (some q2) := by
    rw [getTaxAsNumber, getTax, h2]
    show Except.ok (parseFloatQ (jsReplaceFirst (jsTrim
      (jsReplaceFirst (("Tax: " ++ "$") ++ n2) "Tax: ")) "$")) = .ok (some q2)
    rw [code_number "Tax: " n2 q2 e2]
  have hc : getTotalAsNumber st = .ok (some q3) := by
    rw [getTotalAsNumber, getTotal, h3]
    show Except.ok (parseFloatQ (jsReplaceFirst (jsTrim
      (jsReplaceFirst (("Total: " ++ "$") ++ n3) "Total: ")) "$")) = .ok (some q3)
    rw [code_number "Total: " n3 q3 e3]
  have hv : verifyTotalCalculation st = .ok (decide (|q3 - (q1 + q2)| < (1 : ℚ)/100)) := by
    rw [verifyTotalCalculation, ha, hb, hc]
  refine ⟨spec_number "Item total: " n1 q1 e1, spec_number "Tax: " n2 q2 e2,
    spec_number "Total: " n3 q3 e3, hv, ?_⟩
  rw [hv]
  constructor
  · intro hE
    have : decide (|q3 - (q1 + q2)| < (1 : ℚ)/100) = true := by
      exact Except.ok.inj hE
    exact of_decide_eq_true this
  · intro hlt
    rw [decide_eq_true hlt]

/-- A checkout step-two state displaying integer amounts 32, 2 and 34. -/
def stC1 : PageState :=
  ⟨fun s =>
    if s = itemTotalSel then some [⟨true, true, false, some "Item total: $32"⟩]
    else if s = taxSel then some [⟨true, true, false, some "Tax: $2"⟩]
    else if s = totalSel then some [⟨true, true, false, some "Total: $34"⟩]
    else none⟩

/-- Witness for C1: at a state displaying 32 + 2 = 34 the extraction yields
those amounts and the verification equivalence holds. -/
theorem verifyTotalCalculation_spec_instance :
    claimLabelNumber "Item total: " ("Item total: $" ++ "32") = some 32 ∧
    claimLabelNumber "Tax: " ("Tax: $" ++ "2") = some 2 ∧
    claimLabelNumber "Total: " ("Total: $" ++ "34") = some 34 ∧
    verifyTotalCalculation stC1 = .ok (decide (|(34 : ℚ) - (32 + 2)| < (1 : ℚ)/100)) ∧
    (verifyTotalCalculation stC1 = .ok true ↔ |(34 : ℚ) - (32 + 2)| < (1 : ℚ)/100) :=
  verifyTotalCalculation_spec stC1 "32" "2" "34" 32 2 34
    (by rfl) (by decide) (by rfl) (by decide) (by rfl) (by decide)

/-! ### Claim C9: currency helpers round trip (src/utils/helpers.ts)

`formatCurrency` renders an amount as a dollar sign followed by
`amount.toFixed(2)`; `parsePriceToNumber` removes the first dollar sign,
trims, and parses with `parseFloat`.  The ECMAScript builtin `toFixed(2)`
picks the integer n closest to `amount * 100` (the larger n on a tie, for
non-negative amounts: half up) and renders `n / 100` with exactly two
fraction digits; it is modelled here for non-negative rational amounts. -/

/-- Character of a decimal digit value. -/
def digitChar (d : Nat) : Char := Char.ofNat (48 + d)

theorem digitChar_isDigit {d : Nat} (h : d < 10) : (digitChar d).isDigit = true := by
  interval_cases d <;> decide

theorem digitVal_digitChar {d : Nat} (h : d < 10) : digitVal (digitChar d) = d := by
  interval_cases d <;> decide

/-- Big-endian decimal digits of a positive number, with fuel. -/
def renderNatAux : Nat → Nat → List Char
  | 0, _ => []
  | fuel + 1, n => if n = 0 then [] else renderNatAux fuel (n / 10) ++ [digitChar (n % 10)]

/-- Big-endian decimal digits of a number. -/
def renderNat (n : Nat) : List Char :=
  if n = 0 then ['0'] else renderNatAux n n

theorem valOfDigits_append_singleton (l : List Char) (c : Char) :
    valOfDigits (l ++ [c]) = valOfDigits l * 10 + digitVal c := by
  simp [valOfDigits, List.foldl_append]

theorem renderNatAux_val : ∀ (fuel n : Nat), n ≤ fuel →
    valOfDigits (renderNatAux fuel n) = n := by
  intro fuel
  induction fuel with
  | zero => intro n h; interval_cases n; rfl
  | succ f ih =>
    intro n h
    by_cases h0 : n = 0
    · simp [renderNatAux, h0, valOfDigits]
    · have hdiv : n / 10 ≤ f := by omega
      rw [renderNatAux, if_neg h0, valOfDigits_append_singleton, ih (n / 10) hdiv,
        digitVal_digitChar (Nat.mod_lt n (by omega))]
      omega

theorem renderNatAux_digits : ∀ (fuel n : Nat), ∀ c ∈ renderNatAux fuel n,
    c.isDigit = true := by
  intro fuel
  induction fuel with
  | zero => intro n c hc; simp [renderNatAux] at hc
  | succ f ih =>
    intro n c hc
    by_cases h0 : n = 0
    · simp [renderNatAux, h0] at hc
    · rw [renderNatAux, if_neg h0] at hc
      rcases List.mem_append.mp hc with hm | hm
      · exact ih (n / 10) c hm
      · rw [List.mem_singleton.mp hm]
        exact digitChar_isDigit (Nat.mod_lt n (by omega))

theorem renderNat_val (n : Nat) : valOfDigits (renderNat n) = n := by
  by_cases h0 : n = 0
  · subst h0; rfl
  · rw [renderNat, if_neg h0]
    exact renderNatAux_val n n (le_refl n)

theorem renderNat_digits (n : Nat) : ∀ c ∈ renderNat n, c.isDigit = true := by
  by_cases h0 : n = 0
  · subst h0; intro c hc; rw [List.mem_singleton.mp hc]; decide
  · rw [renderNat, if_neg h0]; exact renderNatAux_digits n n

theorem renderNat_ne_nil (n : Nat) : renderNat n ≠ [] := by
  by_cases h0 : n = 0
  · subst h0; simp [renderNat]
  · rw [renderNat, if_neg h0]
    cases n with
    | zero => exact absurd rfl h0
    | succ m => simp [renderNatAux, h0]

/-- Model of `amount.toFixed(2)` for a non-negative rational amount. -/
def toFixed2 (x : ℚ) : String :=
  let n : Nat := (⌊x * 100 + 1/2⌋).toNat
  ⟨renderNat (n / 100) ++ '.' :: [digitChar (n % 100 / 10), digitChar (n % 100 % 10)]⟩

/-- helpers.formatCurrency. -/
def formatCurrency (x : ℚ) : String := "$" ++ toFixed2 x

/-- helpers.parsePriceToNumber: parseFloat of the trimmed string with the
first dollar sign removed. -/
def parsePriceToNumber (s : String) : Option ℚ :=
  parseFloatQ (jsTrim (jsReplaceFirst s "$"))

/-- Rounding to two decimal places (half up), the claim's rounding. -/
def specRound2 (x : ℚ) : ℚ := (⌊x * 100 + 1/2⌋ : ℤ) / 100

theorem toFixed2_clean (x : ℚ) :
    cleanDecimal (toFixed2 x) =
      some ((((⌊x * 100 + 1/2⌋).toNat : Nat) : ℚ) / 100) := by
  rw [cleanDecimal]
  show cleanDecimalL (renderNat ((⌊x * 100 + 1/2⌋).toNat / 100) ++ '.' ::
    [digitChar ((⌊x * 100 + 1/2⌋).toNat % 100 / 10),
     digitChar ((⌊x * 100 + 1/2⌋).toNat % 100 % 10)]) = _
  set n : Nat := (⌊x * 100 + 1/2⌋).toNat with hn
  have hd1 : (n % 100 / 10) < 10 := by omega
  have hd2 : (n % 100 % 10) < 10 := by omega
  have hsplit : takeDigitsL (renderNat (n / 100) ++ '.' ::
      [digitChar (n % 100 / 10), digitChar (n % 100 % 10)]) =
      (renderNat (n / 100), '.' :: [digitChar (n % 100 / 10), digitChar (n % 100 % 10)]) := by
    apply takeDigitsL_exact
    · exact renderNat_digits (n / 100)
    · intro c cs h
      injection h with h1 h2
      rw [← h1]
      decide
  have hfrac : takeDigitsL [digitChar (n % 100 / 10), digitChar (n % 100 % 10)] =
      ([digitChar (n % 100 / 10), digitChar (n % 100 % 10)], []) := by
    have h := takeDigitsL_exact [digitChar (n % 100 / 10), digitChar (n % 100 % 10)] []
      (by
        intro c hc
        rcases List.mem_cons.mp hc with hm | hm
        · rw [hm]; exact digitChar_isDigit hd1
        · rw [List.mem_singleton.mp hm]; exact digitChar_isDigit hd2)
      (by intro c cs h; cases h)
    simpa using h
  have hval2 : valOfDigits [digitChar (n % 100 / 10), digitChar (n % 100 % 10)] = n % 100 := by
    have ha : valOfDigits [digitChar (n % 100 / 10), digitChar (n % 100 % 10)] =
        valOfDigits [digitChar (n % 100 / 10)] * 10 + digitVal (digitChar (n % 100 % 10)) :=
      valOfDigits_append_singleton [digitChar (n % 100 / 10)] _
    have hb : valOfDigits [digitChar (n % 100 / 10)] = digitVal (digitChar (n % 100 / 10)) := by
      simp [valOfDigits]
    rw [ha, digitVal_digitChar hd2, hb, digitVal_digitChar hd1]
    omega
  have hmm : n % 100 % 10 = n % 10 := Nat.mod_mod_of_dvd n (by norm_num)
  have hval2' : valOfDigits [digitChar (n % 100 / 10), digitChar (n % 10)] = n % 100 := by
    rw [← hmm]; exact hval2
  rw [cleanDecimalL]
  simp only [hsplit]
  rw [if_neg (by simpa using renderNat_ne_nil (n / 100))]
  simp [headIsDot, fracSplit, hfrac, hval2, hval2', renderNat_val]
  have hnat : n = n / 100 * 100 + n % 100 := by omega
  have hcast : ((n : ℚ)) = ((n / 100 : Nat) : ℚ) * 100 + ((n % 100 : Nat) : ℚ) := by
    exact_mod_cast hnat
  rw [hcast]
  ring

theorem parsePrice_formatCurrency (x : ℚ) :
    parsePriceToNumber (formatCurrency x) =
      some ((((⌊x * 100 + 1/2⌋).toNat : Nat) : ℚ) / 100) := by
  have hclean := toFixed2_clean x
  have h1 : jsReplaceFirst (formatCurrency x) "$" = toFixed2 x := by
    apply string_eq_of_data
    show replaceFirstL ['$'] (['$'] ++ (toFixed2 x).data) = (toFixed2 x).data
    exact replaceFirstL_cancel ['$'] (toFixed2 x).data
  have h2 : jsTrim (toFixed2 x) = toFixed2 x := by
    apply string_eq_of_data
    exact trimL_eq_self _ (cleanDecimalL_chars _ _ hclean)
  rw [parsePriceToNumber, h1, h2]
  exact parseFloatL_of_clean _ _ hclean

/-- C9: for every non-negative amount, parsePriceToNumber after
formatCurrency yields the amount rounded to two decimal places, and an
amount already expressible in two decimal places round-trips exactly. -/
theorem currency_roundtrip_spec (x : ℚ) (hx : 0 ≤ x) :
    parsePriceToNumber (formatCurrency x) = some (specRound2 x) ∧
    ((x * 100).den = 1 → parsePriceToNumber (formatCurrency x) = some x) := by
  have hfl : (0 : ℤ) ≤ ⌊x * 100 + 1/2⌋ := by
    apply Int.floor_nonneg.mpr
    positivity
  have hcast : (((⌊x * 100 + 1/2⌋).toNat : Nat) : ℚ) = ((⌊x * 100 + 1/2⌋ : ℤ) : ℚ) := by
    exact_mod_cast congrArg (fun z : ℤ => (z : ℚ)) (Int.toNat_of_nonneg hfl)
  have hmain : parsePriceToNumber (formatCurrency x) = some (specRound2 x) := by
    rw [parsePrice_formatCurrency, hcast, specRound2]
  refine ⟨hmain, ?_⟩
  intro hden
  have hint : x * 100 = ((x * 100).num : ℚ) := by
    have h := Rat.num_div_den (x * 100)
    rw [hden, Nat.cast_one, div_one] at h
    exact h.symm
  have hfloor : ⌊x * 100 + 1/2⌋ = (x * 100).num := by
    conv_lhs => rw [hint, add_comm]
    rw [Int.floor_add_int]
    have h12 : ⌊(1/2 : ℚ)⌋ = 0 := by
      rw [Int.floor_eq_zero_iff, Set.mem_Ico]
      norm_num
    rw [h12, zero_add]
  have hx100 : specRound2 x = x := by
    rw [specRound2, hfloor, ← hint]
    field_simp
  rw [hmain, hx100]

/-- Witness for C9: the amount 2 formats to a price string that parses back
to 2. -/
theorem currency_roundtrip_spec_instance :
    parsePriceToNumber (formatCurrency 2) = some (specRound2 2) ∧
    (((2 : ℚ) * 100).den = 1 → parsePriceToNumber (formatCurrency 2) = some 2) :=
  currency_roundtrip_spec 2 zero_le_two

end SauceDemo
